import Mathlib

/-!
Verification development for a Python DB-API client for Druid
(`pydruid/db/api.py` and `pydruid/db/async_api.py`).

The source is shallowly embedded: bytes are `Nat`, byte strings are
`List Nat`, Python text is `String`, Python exceptions are an explicit
`PyExc` type and fallible code returns `Except PyExc`.
-/

namespace PydruidDb

/-! ## Line Reassembler (`AsyncCursor._aiter_lines`, async_api.py 195-217)

Bytes are `Nat`; CR is 13 and LF is 10.  `splitlines` embeds Python
`bytes.splitlines`, which splits exactly on the byte terminators
LF, CR and CRLF and drops a final empty segment when the input ends
with a terminator. -/

/-- A byte is a line terminator for `bytes.splitlines`: CR (13) or LF (10). -/
def isTerm (b : Nat) : Bool := b == 13 || b == 10

/-- Prepend a byte onto the first segment of a segment list (helper for
`splitlines`; an empty segment list stands for "no segment open yet"). -/
def consHead (b : Nat) : List (List Nat) → List (List Nat)
  | [] => [[b]]
  | l :: ls => (b :: l) :: ls

/-- Python `bytes.splitlines`: split on LF, CR and CRLF, no final empty
segment when the input ends with a terminator. -/
def splitlines : List Nat → List (List Nat)
  | [] => []
  | 13 :: 10 :: rest => [] :: splitlines rest
  | 13 :: rest => [] :: splitlines rest
  | 10 :: rest => [] :: splitlines rest
  | b :: rest => consHead b (splitlines rest)

/-- `if pending is not None: chunk = pending + chunk` (async_api.py 203-204). -/
def joinChunk (pending : Option (List Nat)) (c : List Nat) : List Nat :=
  match pending with
  | some p => p ++ c
  | none => c

/-- The per-chunk body of `_aiter_lines` (async_api.py 206-211):
`lines = chunk.splitlines()`; if `lines and lines[-1] and chunk and
lines[-1][-1] == chunk[-1]` then `pending = lines.pop()` else
`pending = None`; the returned list is what the `for line in lines`
loop yields. -/
def splitStep (chunk : List Nat) : Option (List Nat) × List (List Nat) :=
  match (splitlines chunk).getLast? with
  | some last =>
    if last ≠ [] ∧ chunk ≠ [] ∧ last.getLast? = chunk.getLast? then
      (some last, (splitlines chunk).dropLast)
    else
      (none, splitlines chunk)
  | none => (none, splitlines chunk)

/-- The chunk loop of `_aiter_lines`, carrying the `pending` buffer; after
the chunk sequence ends, a remaining `pending` is yielded as a final line
(async_api.py 216-217). -/
def aiterAux (pending : Option (List Nat)) : List (List Nat) → List (List Nat)
  | [] =>
    match pending with
    | some p => [p]
    | none => []
  | c :: cs =>
    (splitStep (joinChunk pending c)).2 ++
      aiterAux (splitStep (joinChunk pending c)).1 cs

/-- `AsyncCursor._aiter_lines`: the full line sequence emitted for a
sequence of body chunks. -/
def aiter_lines (chunks : List (List Nat)) : List (List Nat) :=
  aiterAux none chunks

/-- A byte stream is a well-formed sequence of terminated lines iff it is
empty or its last byte is a line terminator. -/
def endsWithTerm (s : List Nat) : Bool :=
  match s.getLast? with
  | some b => isTerm b
  | none => true

/-- A list of bytes free of line terminators (the shape of an incomplete
trailing line). -/
def termFree (l : List Nat) : Bool := l.all (fun b => !isTerm b)

/-- No boundary of the chunk partition (after an already-processed prefix
`A`) falls between the CR and the LF of a CRLF terminator. -/
def noCRLFsplit (A : List Nat) (cs : List (List Nat)) : Prop :=
  ∀ k, k ≤ cs.length →
    ¬(((A ++ (cs.take k).flatten).getLast? = some 13) ∧
      (((cs.drop k).flatten).head? = some 10))

instance (A : List Nat) (cs : List (List Nat)) : Decidable (noCRLFsplit A cs) :=
  Nat.decidableBallLE cs.length _

/-! ## Python value model

`Py` models the Python runtime values that flow through the parameter
escaper and the type-inference helpers.  Python `bool` is a subclass of
`int`, so the `isinstance` embeddings below make booleans `int`-compatible;
the dispatch order of the source is preserved in the definitions that use
them.  `.dict` stands for any mapping value (its entries are irrelevant to
every modelled operation). -/

inductive Py where
  | str (s : String)
  | bool (b : Bool)
  | int (n : Int)
  | float (q : Rat)
  | none
  | dict
  | list (xs : List Py)
  | tuple (xs : List Py)

/-- Python runtime values that `escape` can return: a `str`, the numeric
value unchanged, or `None` when no branch matches. -/
inductive PyObj where
  | str (s : String)
  | int (n : Int)
  | float (q : Rat)
  | none
deriving DecidableEq

/-- The Python exceptions raised by the modelled code paths. -/
inductive PyExc where
  | Error (msg : String)
  | NotSupportedError (msg : String)
  | ProgrammingError (msg : String)
  | ValueError (msg : String)
  | TypeError (msg : String)
  | KeyError (msg : String)
  | RuntimeError (msg : String)
deriving DecidableEq

instance {ε α : Type} [DecidableEq ε] [DecidableEq α] : DecidableEq (Except ε α) := fun x y =>
  match x, y with
  | .ok a, .ok b =>
    if h : a = b then isTrue (by rw [h]) else isFalse (by intro hh; cases hh; exact h rfl)
  | .error a, .error b =>
    if h : a = b then isTrue (by rw [h]) else isFalse (by intro hh; cases hh; exact h rfl)
  | .ok _, .error _ => isFalse (by intro hh; cases hh)
  | .error _, .ok _ => isFalse (by intro hh; cases hh)

/-- `isinstance(value, str)`. -/
def isinstance_str : Py → Bool
  | .str _ => true
  | _ => false

/-- `isinstance(value, bool)`. -/
def isinstance_bool : Py → Bool
  | .bool _ => true
  | _ => false

/-- `isinstance(value, int)`: true for `bool` too, since Python `bool` is a
subclass of `int`. -/
def isinstance_int : Py → Bool
  | .int _ => true
  | .bool _ => true
  | _ => false

/-- `isinstance(value, float)`. -/
def isinstance_float : Py → Bool
  | .float _ => true
  | _ => false

/-- `isinstance(value, (list, tuple))`. -/
def isinstance_list_tuple : Py → Bool
  | .list _ => true
  | .tuple _ => true
  | _ => false

/-- `value is None`. -/
def is_none_value : Py → Bool
  | .none => true
  | _ => false

/-! ## `class Type` and type inference (api.py 15-18, 106-142) -/

/-- `Type.STRING` (api.py 16). -/
def TypeSTRING : Int := 1

/-- `Type.NUMBER` (api.py 17). -/
def TypeNUMBER : Int := 2

/-- `Type.BOOLEAN` (api.py 18). -/
def TypeBOOLEAN : Int := 3

/-- `get_type` (api.py 128-142): infer the type code of a value; the `bool`
check comes before the numeric check because `bool` is a subclass of
`int`. -/
def get_type (value : Py) : Except PyExc Int :=
  if isinstance_str value || is_none_value value then .ok TypeSTRING
  else if isinstance_bool value then .ok TypeBOOLEAN
  else if isinstance_int value || isinstance_float value then .ok TypeNUMBER
  else .error (.Error ("Value of unknown type"))

/-- `get_description_from_row` (api.py 106-125): per-column 7-tuples
`(name, type_code, None, None, None, None, null_ok)` sampled from one row
(a name-to-value mapping, modelled as an ordered association list).
Python tuples are modelled as `List Py`. -/
def get_description_from_row (row : List (String × Py)) : Except PyExc (List (List Py)) :=
  row.mapM (fun nv => do
    let t ← get_type nv.2
    let t2 ← get_type nv.2
    Except.ok [Py.str nv.1, Py.int t, Py.none, Py.none, Py.none, Py.none,
      Py.bool (t2 == TypeSTRING)])

/-- `BaseCursor._set_description` (api.py 378-379):
`self.description = [(name, None) for name in field_names]` — names only,
no type inference. -/
def set_description (field_names : List String) : List (List Py) :=
  field_names.map (fun name => [Py.str name, Py.none])

/-! ## Parameter escaper (`escape` / `apply_parameters`, api.py 479-503) -/

/-- The single-quote character (code 39). -/
def squoteChar : Char := Char.ofNat 39

/-- A single-quote as a string. -/
def squote : String := squoteChar.toString

/-- `value.replace("'", "''")`: double every single quote. -/
def doubleQuotes : List Char → List Char
  | [] => []
  | c :: rest =>
    if c = squoteChar then squoteChar :: squoteChar :: doubleQuotes rest
    else c :: doubleQuotes rest

/-- Whether an `escape` result is a Python `str`. -/
def isStrObj : PyObj → Bool
  | .str _ => true
  | _ => false

/-- The underlying string of a `str` result (only used under `isStrObj`). -/
def strOfStrObj : PyObj → String
  | .str s => s
  | _ => ""

/-- Python `", ".join(...)`: requires every item to be a `str`, otherwise
raises `TypeError` (the source's `escape` returns numbers unconverted, so
they reach the join as non-strings).  Python reports the first offending
index and type; the message here is a fixed abbreviation of it. -/
def joinComma (objs : List PyObj) : Except PyExc PyObj :=
  if objs.all isStrObj then
    .ok (.str (String.intercalate (", ") (objs.map strOfStrObj)))
  else .error (.TypeError ("sequence item: expected str instance"))

mutual

/-- `escape` (api.py 487-503).  The source dispatches with an
`isinstance` chain in this order: the literal `"*"`, `str`, `bool`,
`(int, float)`, `(list, tuple)`; with no matching branch it falls off the
end and returns Python `None`.  The `bool` arm never reaches the numeric
arm even though `isinstance_int (Py.bool b) = true`.  Python evaluates the
join lazily so it can raise before later elements are escaped; the eager
order here yields the same result for every input whose elements escape
without error, and some `TypeError` whenever Python raises one. -/
def escape : Py → Except PyExc PyObj
  | .str s =>
    if s = "*" then .ok (.str s)
    else .ok (.str (squote ++ (doubleQuotes s.data).asString ++ squote))
  | .bool b => .ok (.str (if b then "TRUE" else "FALSE"))
  | .int n => .ok (.int n)
  | .float q => .ok (.float q)
  | .list xs => do joinComma (← escapeList xs)
  | .tuple xs => do joinComma (← escapeList xs)
  | .none => .ok .none
  | .dict => .ok .none

/-- `escape(element) for element in value` inside the join. -/
def escapeList : List Py → Except PyExc (List PyObj)
  | [] => .ok []
  | x :: xs => do .ok ((← escape x) :: (← escapeList xs))

end

/-- `str(value)` as applied by `%s` formatting to an `escape` result
(`str(None)` is the text `None`; the float rendering is an approximation
never relied upon by any theorem below). -/
def strOfPyObj : PyObj → String
  | .str s => s
  | .int n => toString n
  | .float q => toString q
  | .none => "None"

/-- Dictionary lookup in the escaped-parameter mapping. -/
def lookupParam (ps : List (String × PyObj)) (k : String) : Option PyObj :=
  (ps.find? (fun kv => kv.1 == k)).map (fun kv => kv.2)

/-- The percent character. -/
def pctChar : Char := Char.ofNat 37

/-- The opening parenthesis character. -/
def lparChar : Char := Char.ofNat 40

/-- The closing parenthesis character. -/
def rparChar : Char := Char.ofNat 41

/-- The conversion character `s`. -/
def sChar : Char := Char.ofNat 115

/-- Python `operation % mapping` for the fragment of the format language
the source relies on: `%%` and `%(name)s`.  Any other use of `%` is
rejected with a `ValueError`, as Python does for genuinely invalid format
characters (conversions other than `s` are not modelled — the source never
produces them).  The fuel argument is always called with
`length + 1`, which strictly bounds the recursion depth, so the
out-of-fuel branch is unreachable. -/
def format_aux : Nat → List Char → List (String × PyObj) → Except PyExc (List Char)
  | 0, _, _ => .error (.Error ("format: out of fuel"))
  | _ + 1, [], _ => .ok []
  | fuel + 1, c :: rest, ps =>
    if c = pctChar then
      match rest with
      | [] => .error (.ValueError ("incomplete format"))
      | d :: rest2 =>
        if d = pctChar then (format_aux fuel rest2 ps).map (fun out => pctChar :: out)
        else if d = lparChar then
          match rest2.dropWhile (fun e => !(e = rparChar)) with
          | [] => .error (.ValueError ("incomplete format key"))
          | _ :: [] => .error (.ValueError ("incomplete format"))
          | _ :: conv :: rest3 =>
            if conv = sChar then
              match lookupParam ps (rest2.takeWhile (fun e => !(e = rparChar))).asString with
              | some v =>
                (format_aux fuel rest3 ps).map (fun out => (strOfPyObj v).data ++ out)
              | Option.none =>
                .error (.KeyError (rest2.takeWhile (fun e => !(e = rparChar))).asString)
            else .error (.ValueError ("unsupported format character"))
        else .error (.ValueError ("unsupported format character"))
    else (format_aux fuel rest ps).map (fun out => c :: out)

/-- `operation % escaped_parameters` over strings. -/
def pyFormat (operation : String) (ps : List (String × PyObj)) : Except PyExc String :=
  (format_aux (operation.length + 1) operation.data ps).map List.asString

/-- The dict comprehension `{key: escape(value) for key, value in
parameters.items()}` (api.py 483). -/
def escapeParams : List (String × Py) → Except PyExc (List (String × PyObj))
  | [] => .ok []
  | kv :: rest => do .ok ((kv.1, ← escape kv.2) :: (← escapeParams rest))

/-- `apply_parameters` (api.py 479-484): `if not parameters: return
operation`, else escape every value and substitute with `%`. -/
def apply_parameters (operation : String) (parameters : Option (List (String × Py))) :
    Except PyExc String :=
  match parameters with
  | Option.none => .ok operation
  | some ps =>
    if ps.isEmpty then .ok operation
    else do
      let escaped ← escapeParams ps
      pyFormat operation escaped

/-! ## Error translator (`BaseCursor._handle_http_error`, api.py 363-376) -/

/-- Field lookup in the JSON error payload (an ordered mapping of field
name to rendered value). -/
def lookupField (p : List (String × String)) (k : String) : Option String :=
  (p.find? (fun kv => kv.1 == k)).map (fun kv => kv.2)

/-- `response.json()` result, or the synthesized payload when the body is
not parseable as JSON (api.py 365-372); `parsed = none` models the parse
failure and `text` the raw response text. -/
def synth_payload (parsed : Option (List (String × String))) (text : String) :
    List (String × String) :=
  match parsed with
  | some p => p
  | Option.none =>
    [("error", "Unknown error"), ("errorClass", "Unknown"), ("errorMessage", text)]

/-- `if "errorClass" not in payload and "errorCode" in payload:
payload["errorClass"] = payload["errorCode"]` (api.py 373-374). -/
def alias_error_code (payload : List (String × String)) : List (String × String) :=
  if (lookupField payload ("errorClass")).isNone &&
      (lookupField payload ("errorCode")).isSome then
    ("errorClass", (lookupField payload ("errorCode")).getD "") :: payload
  else payload

/-- `"{error} ({errorClass}): {errorMessage}".format(**payload)` followed by
`raise exceptions.ProgrammingError(msg)` (api.py 375-376); a missing field
is a `KeyError`, as in Python. -/
def format_error_message (payload : List (String × String)) : PyExc :=
  match lookupField payload ("error"), lookupField payload ("errorClass"),
      lookupField payload ("errorMessage") with
  | some e, some cls, some m =>
    .ProgrammingError (e ++ (" (") ++ cls ++ ("): ") ++ m)
  | _, _, _ => .KeyError ("missing field in error payload")

/-- `BaseCursor._handle_http_error` (api.py 363-376): the exception raised
for a non-success response. -/
def handle_http_error (parsed : Option (List (String × String))) (text : String) : PyExc :=
  format_error_message (alias_error_code (synth_payload parsed text))

/-- `if r.status_code != 200: self._handle_http_error(r)`
(api.py 457-458 and async_api.py 171-173). -/
def http_status_check (status : Nat) (parsed : Option (List (String × String)))
    (text : String) : Except PyExc Unit :=
  if status ≠ 200 then .error (handle_http_error parsed text) else .ok ()

/-! ## Result stream protocol (`Cursor._stream_query`, api.py 439-476;
`AsyncCursor._stream_query`, async_api.py 154-193)

The JSON decoding done by the external `ujson` library is abstracted as
parse-function parameters; every theorem that needs decoded lines supplies
the decoded forms through hypotheses. -/

/-- The truncation message (api.py 476, async_api.py 193). -/
def truncation_msg : String := "Truncated response. Trailer line not found."

/-- The row loop shared by both `_stream_query` implementations
(api.py 470-476, async_api.py 187-193): for each line, a blank line is the
trailer and stops the stream; otherwise the line is decoded and emitted as
a row; if the lines run out without a trailer, the `for`/`else` branch
raises the truncation `ValueError` — also when zero rows were emitted. -/
def rows_until_trailer {ρ : Type} (parse_row : String → Except PyExc ρ) :
    List String → Except PyExc (List ρ)
  | [] => .error (.ValueError truncation_msg)
  | l :: rest =>
    if l = "" then .ok []
    else do
      let r ← parse_row l
      let rs ← rows_until_trailer parse_row rest
      .ok (r :: rs)

/-- `_stream_query` over the decoded response lines: the first line is the
header (`field_names = ujson_loads(next(lines))`, a missing first line
being a `RuntimeError` since the generator leaks `StopIteration`), the
description is set from the header names only, and the remaining lines are
streamed as rows up to the blank trailer.  `make_row` models
`Row._make(ujson_loads(row))` for the namedtuple built from the header. -/
def stream_query {ρ : Type} (parse_header : String → Except PyExc (List String))
    (make_row : List String → String → Except PyExc ρ) :
    List String → Except PyExc (List (List Py) × List ρ)
  | [] => .error (.RuntimeError ("generator raised StopIteration"))
  | h :: rest => do
    let field_names ← parse_header h
    let rows ← rows_until_trailer (make_row field_names) rest
    .ok (set_description field_names, rows)

/-! ## Cursor fetch operations (api.py 382-437)

A mid-consumption `_stream_query` generator is modelled by the rows it has
not yet yielded plus whether a blank trailer terminates them; pulling past
the end of an unterminated stream raises the truncation error. -/

/-- The not-yet-consumed part of a `_stream_query` generator. -/
structure ResultStream (ρ : Type) where
  rows : List ρ
  terminated : Bool
deriving DecidableEq

/-- The cursor state that the fetch operations consult: the `closed` flag,
`arraysize` (default 1) and `_results` (`none` until `execute`). -/
structure SyncCursor (ρ : Type) where
  closed : Bool
  arraysize : Nat
  results : Option (ResultStream ρ)
deriving DecidableEq

/-- `next(self._results)`: the next row, `none` for `StopIteration` after
the trailer, or the truncation `ValueError` past the end of an
unterminated stream. -/
def stream_next {ρ : Type} (st : ResultStream ρ) :
    Except PyExc (Option ρ × ResultStream ρ) :=
  match st.rows with
  | r :: rest => .ok (some r, ⟨rest, st.terminated⟩)
  | [] =>
    if st.terminated then .ok (Option.none, st)
    else .error (.ValueError truncation_msg)

/-- `list(itertools.islice(it, n))`: pull up to `n` rows, stopping early at
`StopIteration` and propagating any other exception. -/
def islice {ρ : Type} : Nat → ResultStream ρ → Except PyExc (List ρ × ResultStream ρ)
  | 0, st => .ok ([], st)
  | n + 1, st =>
    match st.rows with
    | r :: rest => (islice n ⟨rest, st.terminated⟩).map (fun p => (r :: p.1, p.2))
    | [] =>
      if st.terminated then .ok ([], st)
      else .error (.ValueError truncation_msg)

/-- `size = size or self.arraysize` (api.py 420): both a missing size and a
zero size fall back to `arraysize`. -/
def effective_size (size : Option Nat) (arraysize : Nat) : Nat :=
  match size with
  | Option.none => arraysize
  | some 0 => arraysize
  | some n => n

/-- `Cursor.fetchone` (api.py 409-415) with its decorators: `@check_result`
runs first (raising when `_results` is `None`), then `@check_closed`; the
body returns `self.next()` with `StopIteration` mapped to `None`. -/
def fetchone {ρ : Type} (c : SyncCursor ρ) : Except PyExc (Option ρ × SyncCursor ρ) :=
  match c.results with
  | Option.none => .error (.Error ("Called before `execute`"))
  | some st =>
    if c.closed then .error (.Error ("Cursor already closed"))
    else
      match stream_next st with
      | .ok p => .ok (p.1, ⟨c.closed, c.arraysize, some p.2⟩)
      | .error e => .error e

/-- `Cursor.fetchmany` (api.py 417-421) with its decorators:
`list(itertools.islice(self._results, size or self.arraysize))`. -/
def fetchmany {ρ : Type} (size : Option Nat) (c : SyncCursor ρ) :
    Except PyExc (List ρ × SyncCursor ρ) :=
  match c.results with
  | Option.none => .error (.Error ("Called before `execute`"))
  | some st =>
    if c.closed then .error (.Error ("Cursor already closed"))
    else
      match islice (effective_size size c.arraysize) st with
      | .ok p => .ok (p.1, ⟨c.closed, c.arraysize, some p.2⟩)
      | .error e => .error e

/-- `Cursor.fetchall` (api.py 423-426) with its decorators:
`list(self._results)` drains the stream, surfacing the truncation error of
an unterminated stream. -/
def fetchall {ρ : Type} (c : SyncCursor ρ) : Except PyExc (List ρ × SyncCursor ρ) :=
  match c.results with
  | Option.none => .error (.Error ("Called before `execute`"))
  | some st =>
    if c.closed then .error (.Error ("Cursor already closed"))
    else if st.terminated then .ok (st.rows, ⟨c.closed, c.arraysize, some ⟨[], true⟩⟩)
    else .error (.ValueError truncation_msg)

/-- `BaseCursor.executemany` (api.py 293-297): the only decorator is
`@check_closed`, so a closed cursor raises the closed-state `Error`
before the body can raise `NotSupportedError`. -/
def executemany {ρ : Type} (c : SyncCursor ρ) : Except PyExc Unit :=
  if c.closed then .error (.Error ("Cursor already closed"))
  else .error (.NotSupportedError ("`executemany` is not supported, use `execute` instead"))

/-! ## `AsyncCursor.fetchmany` (async_api.py 126-136)

The body is `async for i, row in self._results`, which destructures every
yielded `Row` namedtuple into two targets (there is no `enumerate`), then
compares `i >= size - 1`. -/

/-- Tuple unpacking `i, row = r` of a row with `r.length` fields. -/
def unpack2 (r : List Py) : Except PyExc (Py × Py) :=
  match r with
  | [i, row] => .ok (i, row)
  | _ =>
    if r.length < 2 then
      .error (.ValueError ("not enough values to unpack (expected 2, got " ++
        toString r.length ++ ")"))
    else .error (.ValueError ("too many values to unpack (expected 2)"))

/-- Python `i >= n` for a destructured first field `i`: defined for
numeric values (including `bool`), a `TypeError` otherwise. -/
def py_ge_int (v : Py) (n : Int) : Except PyExc Bool :=
  match v with
  | .int m => .ok (decide (n ≤ m))
  | .bool b => .ok (decide (n ≤ (if b then (1 : Int) else 0)))
  | .float q => .ok (decide ((n : Rat) ≤ q))
  | _ => .error (.TypeError ("not supported between instances"))

/-- `size = size or self.arraysize` for the async cursor. -/
def effective_size_int (size : Option Int) (arraysize : Int) : Int :=
  match size with
  | Option.none => arraysize
  | some n => if n = 0 then arraysize else n

/-- The `async for i, row in self._results: rows.append(row); if i >=
size - 1: break` loop of `AsyncCursor.fetchmany`, over the remaining rows
of the stream. -/
def async_fetchmany_loop (size : Int) :
    List (List Py) → Bool → Except PyExc (List Py × List (List Py))
  | [], term => if term then .ok ([], []) else .error (.ValueError truncation_msg)
  | r :: rest, term => do
    let p ← unpack2 r
    let stop ← py_ge_int p.1 (size - 1)
    if stop then .ok ([p.2], rest)
    else do
      let q ← async_fetchmany_loop size rest term
      .ok (p.2 :: q.1, q.2)

/-- `AsyncCursor.fetchmany` over a mid-consumption stream. -/
def async_fetchmany (size : Option Int) (arraysize : Int)
    (st : ResultStream (List Py)) : Except PyExc (List Py × ResultStream (List Py)) :=
  match async_fetchmany_loop (effective_size_int size arraysize) st.rows st.terminated with
  | .ok p => .ok (p.1, ⟨p.2, st.terminated⟩)
  | .error e => .error e

/-- The escaped text of a scalar (string or boolean) sequence element, as
the spec describes it; used only to state the amended C5. -/
def escapedScalarText : Py → String
  | .str s => if s = "*" then s else squote ++ (doubleQuotes s.data).asString ++ squote
  | .bool b => if b then "TRUE" else "FALSE"
  | _ => ""

/-! ### Lemmas about `splitlines` and the reassembler -/

theorem consHead_ne_nil (b : Nat) (ls : List (List Nat)) : consHead b ls ≠ [] := by
  cases ls <;> simp [consHead]

theorem consHead_append (b : Nat) (X Y : List (List Nat)) (h : X ≠ []) :
    consHead b (X ++ Y) = consHead b X ++ Y := by
  cases X with
  | nil => exact absurd rfl h
  | cons x xs => simp [consHead]

theorem splitlines_lf (rest : List Nat) : splitlines (10 :: rest) = [] :: splitlines rest := rfl

theorem splitlines_crlf (rest : List Nat) :
    splitlines (13 :: 10 :: rest) = [] :: splitlines rest := rfl

theorem splitlines_cr (rest : List Nat) (h : rest.head? ≠ some 10) :
    splitlines (13 :: rest) = [] :: splitlines rest := by
  match rest with
  | [] => rfl
  | b :: r =>
    simp only [List.head?_cons, ne_eq, Option.some.injEq] at h
    simp [splitlines, h]

theorem splitlines_other (b : Nat) (rest : List Nat) (h1 : b ≠ 13) (h2 : b ≠ 10) :
    splitlines (b :: rest) = consHead b (splitlines rest) := by
  simp [splitlines, h1, h2]

theorem splitlines_ne_nil (s : List Nat) (h : s ≠ []) : splitlines s ≠ [] := by
  induction s using splitlines.induct with
  | case1 => exact absurd rfl h
  | case2 rest ih => simp [splitlines_crlf]
  | case3 rest hne ih =>
    rw [splitlines_cr rest]
    · simp
    · cases rest with
      | nil => simp
      | cons b r =>
        simp only [List.head?_cons, ne_eq, Option.some.injEq]
        intro hb
        exact hne r (by rw [hb])
  | case4 rest ih => simp [splitlines_lf]
  | case5 b rest hcr h13 h10 ih =>
    rw [splitlines_other b rest (fun hh => h13 hh) (fun hh => h10 hh)]
    exact consHead_ne_nil b _

theorem getLast?_cons_of_ne (a : Nat) (l : List Nat) (h : l ≠ []) :
    (a :: l).getLast? = l.getLast? := by
  have : ([a] ++ l).getLast? = l.getLast?.or [a].getLast? := List.getLast?_append
  cases hl : l.getLast? with
  | none => exact absurd (List.getLast?_eq_none_iff.mp hl) h
  | some x =>
    simpa [hl] using this

theorem endsWithTerm_cons_of_ne (a : Nat) (l : List Nat) (h : l ≠ []) :
    endsWithTerm (a :: l) = endsWithTerm l := by
  unfold endsWithTerm
  rw [getLast?_cons_of_ne a l h]

theorem endsWithTerm_append (D u : List Nat) (h : u ≠ []) :
    endsWithTerm (D ++ u) = endsWithTerm u := by
  unfold endsWithTerm
  rw [List.getLast?_append]
  cases hu : u.getLast? with
  | none => exact absurd (List.getLast?_eq_none_iff.mp hu) h
  | some x => simp

theorem termFree_splitlines (s : List Nat) : ∀ l ∈ splitlines s, termFree l = true := by
  induction s using splitlines.induct with
  | case1 => simp [splitlines]
  | case2 rest ih =>
    rw [splitlines_crlf]
    intro l hl
    rcases List.mem_cons.mp hl with h | h
    · subst h; rfl
    · exact ih l h
  | case3 rest hne ih =>
    rw [splitlines_cr rest]
    · intro l hl
      rcases List.mem_cons.mp hl with h | h
      · subst h; rfl
      · exact ih l h
    · cases rest with
      | nil => simp
      | cons b r =>
        simp only [List.head?_cons, ne_eq, Option.some.injEq]
        intro hb
        exact hne r (by rw [hb])
  | case4 rest ih =>
    rw [splitlines_lf]
    intro l hl
    rcases List.mem_cons.mp hl with h | h
    · subst h; rfl
    · exact ih l h
  | case5 b rest hcr h13 h10 ih =>
    rw [splitlines_other b rest (fun hh => h13 hh) (fun hh => h10 hh)]
    intro l hl
    have hb : isTerm b = false := by
      simp only [isTerm, Bool.or_eq_false_iff, beq_eq_false_iff_ne, ne_eq]
      exact ⟨fun hh => h13 hh, fun hh => h10 hh⟩
    cases hsp : splitlines rest with
    | nil =>
      rw [hsp] at hl
      simp only [consHead, List.mem_singleton] at hl
      subst hl
      simp [termFree, hb]
    | cons x xs =>
      rw [hsp] at hl
      simp only [consHead, List.mem_cons] at hl
      rcases hl with h | h
      · subst h
        have hx : termFree x = true := ih x (by rw [hsp]; exact List.mem_cons_self x xs)
        simp only [termFree, List.all_cons, Bool.and_eq_true] at hx ⊢
        exact ⟨by simp [hb], hx⟩
      · exact ih l (by rw [hsp]; exact List.mem_cons_of_mem x h)

theorem splitlines_termFree (x : List Nat) (h1 : x ≠ []) (h2 : termFree x = true) :
    splitlines x = [x] := by
  induction x with
  | nil => exact absurd rfl h1
  | cons b rest ih =>
    simp only [termFree, List.all_cons, Bool.and_eq_true, Bool.not_eq_true'] at h2
    have h13 : b ≠ 13 := by
      intro hh; rw [hh] at h2; simp [isTerm] at h2
    have h10 : b ≠ 10 := by
      intro hh; rw [hh] at h2; simp [isTerm] at h2
    rw [splitlines_other b rest h13 h10]
    cases rest with
    | nil => rfl
    | cons c r =>
      rw [ih (by simp) h2.2]
      rfl

theorem head?_append_of_ne_nil (c r : List Nat) (h : c ≠ []) :
    (c ++ r).head? = c.head? := by
  cases c with
  | nil => exact absurd rfl h
  | cons x xs => simp

/-- `splitlines` distributes over concatenation when the left part is empty
or ends with a terminator, provided the boundary does not cut a CRLF pair. -/
theorem splitlines_append (s : List Nat) : ∀ t : List Nat, endsWithTerm s = true →
    ¬(s.getLast? = some 13 ∧ t.head? = some 10) →
    splitlines (s ++ t) = splitlines s ++ splitlines t := by
  induction s using splitlines.induct with
  | case1 => intro t _ _; simp [splitlines]
  | case2 rest ih =>
    intro t hs hcond
    by_cases hr : rest = []
    · subst hr
      rw [List.cons_append, List.cons_append, List.nil_append, splitlines_crlf,
        splitlines_crlf]
      rfl
    · have hs2 : endsWithTerm rest = true := by
        rw [endsWithTerm_cons_of_ne 13 (10 :: rest) (by simp),
          endsWithTerm_cons_of_ne 10 rest hr] at hs
        exact hs
      have hcond2 : ¬(rest.getLast? = some 13 ∧ t.head? = some 10) := by
        rw [getLast?_cons_of_ne 13 (10 :: rest) (by simp),
          getLast?_cons_of_ne 10 rest hr] at hcond
        exact hcond
      rw [List.cons_append, List.cons_append, splitlines_crlf, splitlines_crlf,
        ih t hs2 hcond2]
      rfl
  | case3 rest hne ih =>
    intro t hs hcond
    have hrhead : rest.head? ≠ some 10 := by
      cases rest with
      | nil => simp
      | cons b r =>
        simp only [List.head?_cons, ne_eq, Option.some.injEq]
        intro hb
        exact hne r (by rw [hb])
    by_cases hr : rest = []
    · subst hr
      have ht : t.head? ≠ some 10 := by
        intro hh
        exact hcond ⟨rfl, hh⟩
      rw [List.cons_append, List.nil_append, splitlines_cr t ht]
      rfl
    · have hs2 : endsWithTerm rest = true := by
        rw [endsWithTerm_cons_of_ne 13 rest hr] at hs
        exact hs
      have hcond2 : ¬(rest.getLast? = some 13 ∧ t.head? = some 10) := by
        rw [getLast?_cons_of_ne 13 rest hr] at hcond
        exact hcond
      have hrthead : (rest ++ t).head? ≠ some 10 := by
        rw [head?_append_of_ne_nil rest t hr]
        exact hrhead
      rw [List.cons_append, splitlines_cr (rest ++ t) hrthead, splitlines_cr rest hrhead,
        ih t hs2 hcond2]
      rfl
  | case4 rest ih =>
    intro t hs hcond
    by_cases hr : rest = []
    · subst hr
      rw [List.cons_append, List.nil_append, splitlines_lf]
      rfl
    · have hs2 : endsWithTerm rest = true := by
        rw [endsWithTerm_cons_of_ne 10 rest hr] at hs
        exact hs
      have hcond2 : ¬(rest.getLast? = some 13 ∧ t.head? = some 10) := by
        rw [getLast?_cons_of_ne 10 rest hr] at hcond
        exact hcond
      rw [List.cons_append, splitlines_lf, splitlines_lf, ih t hs2 hcond2]
      rfl
  | case5 b rest hcr h13 h10 ih =>
    intro t hs hcond
    have hb13 : b ≠ 13 := fun hh => h13 hh
    have hb10 : b ≠ 10 := fun hh => h10 hh
    by_cases hr : rest = []
    · subst hr
      unfold endsWithTerm at hs
      simp only [List.getLast?_singleton] at hs
      simp [isTerm, hb13, hb10] at hs
    · have hs2 : endsWithTerm rest = true := by
        rw [endsWithTerm_cons_of_ne b rest hr] at hs
        exact hs
      have hcond2 : ¬(rest.getLast? = some 13 ∧ t.head? = some 10) := by
        rw [getLast?_cons_of_ne b rest hr] at hcond
        exact hcond
      rw [List.cons_append, splitlines_other b (rest ++ t) hb13 hb10,
        splitlines_other b rest hb13 hb10, ih t hs2 hcond2,
        consHead_append b (splitlines rest) (splitlines t) (splitlines_ne_nil rest hr)]

/-- A chunk that does not end with a terminator splits as a terminated
prefix plus a nonempty terminator-free final segment, and `splitlines`
keeps that final segment as its last element. -/
theorem splitlines_decomp (u : List Nat) : endsWithTerm u = false →
    ∃ v l, u = v ++ l ∧ l ≠ [] ∧ termFree l = true ∧ endsWithTerm v = true ∧
      splitlines u = splitlines v ++ [l] := by
  induction u using splitlines.induct with
  | case1 => intro h; simp [endsWithTerm] at h
  | case2 rest ih =>
    intro h
    have hr : rest ≠ [] := by
      rintro rfl
      simp [endsWithTerm, isTerm] at h
    have h2 : endsWithTerm rest = false := by
      rw [endsWithTerm_cons_of_ne 13 (10 :: rest) (by simp),
        endsWithTerm_cons_of_ne 10 rest hr] at h
      exact h
    obtain ⟨v, l, hvl, hl, hfree, hv, hsp⟩ := ih h2
    refine ⟨13 :: 10 :: v, l, by rw [hvl]; rfl, hl, hfree, ?_, ?_⟩
    · by_cases hv0 : v = []
      · subst hv0; rfl
      · rw [endsWithTerm_cons_of_ne 13 (10 :: v) (by simp),
          endsWithTerm_cons_of_ne 10 v hv0]
        exact hv
    · rw [splitlines_crlf, splitlines_crlf, hsp]
      rfl
  | case3 rest hne ih =>
    intro h
    have hrhead : rest.head? ≠ some 10 := by
      cases rest with
      | nil => simp
      | cons b r =>
        simp only [List.head?_cons, ne_eq, Option.some.injEq]
        intro hb
        exact hne r (by rw [hb])
    have hr : rest ≠ [] := by
      rintro rfl
      simp [endsWithTerm, isTerm] at h
    have h2 : endsWithTerm rest = false := by
      rw [endsWithTerm_cons_of_ne 13 rest hr] at h
      exact h
    obtain ⟨v, l, hvl, hl, hfree, hv, hsp⟩ := ih h2
    have hvhead : v.head? ≠ some 10 := by
      by_cases hv0 : v = []
      · subst hv0; simp
      · rw [← head?_append_of_ne_nil v l hv0, ← hvl]
        exact hrhead
    refine ⟨13 :: v, l, by rw [hvl]; rfl, hl, hfree, ?_, ?_⟩
    · by_cases hv0 : v = []
      · subst hv0; rfl
      · rw [endsWithTerm_cons_of_ne 13 v hv0]
        exact hv
    · rw [splitlines_cr rest hrhead, splitlines_cr v hvhead, hsp]
      rfl
  | case4 rest ih =>
    intro h
    have hr : rest ≠ [] := by
      rintro rfl
      simp [endsWithTerm, isTerm] at h
    have h2 : endsWithTerm rest = false := by
      rw [endsWithTerm_cons_of_ne 10 rest hr] at h
      exact h
    obtain ⟨v, l, hvl, hl, hfree, hv, hsp⟩ := ih h2
    refine ⟨10 :: v, l, by rw [hvl]; rfl, hl, hfree, ?_, ?_⟩
    · by_cases hv0 : v = []
      · subst hv0; rfl
      · rw [endsWithTerm_cons_of_ne 10 v hv0]
        exact hv
    · rw [splitlines_lf, splitlines_lf, hsp]
      rfl
  | case5 b rest hcr h13 h10 ih =>
    intro h
    have hb13 : b ≠ 13 := fun hh => h13 hh
    have hb10 : b ≠ 10 := fun hh => h10 hh
    have hbfree : isTerm b = false := by simp [isTerm, hb13, hb10]
    by_cases hr : rest = []
    · subst hr
      refine ⟨[], [b], rfl, by simp, by simp [termFree, hbfree], rfl, ?_⟩
      rw [splitlines_other b [] hb13 hb10]
      rfl
    · have h2 : endsWithTerm rest = false := by
        rw [endsWithTerm_cons_of_ne b rest hr] at h
        exact h
      obtain ⟨v, l, hvl, hl, hfree, hv, hsp⟩ := ih h2
      by_cases hv0 : v = []
      · subst hv0
        simp only [List.nil_append] at hvl
        refine ⟨[], b :: l, by rw [hvl]; rfl, by simp, ?_, rfl, ?_⟩
        · simp only [termFree, List.all_cons, Bool.and_eq_true]
          exact ⟨by simp [hbfree], hfree⟩
        · rw [splitlines_other b rest hb13 hb10, hsp]
          rfl
      · refine ⟨b :: v, l, by rw [hvl]; rfl, hl, hfree, ?_, ?_⟩
        · rw [endsWithTerm_cons_of_ne b v hv0]
          exact hv
        · rw [splitlines_other b rest hb13 hb10, hsp,
            consHead_append b (splitlines v) [l] (splitlines_ne_nil v hv0),
            splitlines_other b v hb13 hb10]

/-- On a chunk ending with a terminator (or empty), the pending-detection
condition of `_aiter_lines` is false: no partial line is held back. -/
theorem splitStep_term (u : List Nat) (hu : endsWithTerm u = true) :
    splitStep u = (none, splitlines u) := by
  unfold splitStep
  cases hls : (splitlines u).getLast? with
  | none => rfl
  | some last =>
    simp only
    rw [if_neg]
    rintro ⟨hl, hc, heq⟩
    have hmem : last ∈ splitlines u := List.mem_of_mem_getLast? hls
    have hfree := termFree_splitlines u last hmem
    cases hub : u.getLast? with
    | none => exact hc (List.getLast?_eq_none_iff.mp hub)
    | some b =>
      have hb : isTerm b = true := by
        unfold endsWithTerm at hu
        rw [hub] at hu
        exact hu
      rw [hub] at heq
      have hbl : b ∈ last := List.mem_of_mem_getLast? heq
      have := (List.all_eq_true.mp hfree) b hbl
      simp [hb] at this

/-- On a chunk that decomposes with a nonempty terminator-free final
segment, `_aiter_lines` holds that segment back as `pending` and yields
the other segments. -/
theorem splitStep_nonterm (u v l : List Nat) (huv : u = v ++ l) (hl : l ≠ [])
    (hsp : splitlines u = splitlines v ++ [l]) :
    splitStep u = (some l, splitlines v) := by
  unfold splitStep
  rw [hsp, List.getLast?_concat]
  simp only
  rw [if_pos]
  · rw [List.dropLast_concat]
  · refine ⟨hl, ?_, ?_⟩
    · rw [huv]
      intro hh
      exact hl (List.append_eq_nil.mp hh).2
    · rw [huv, List.getLast?_append]
      cases hll : l.getLast? with
      | none => exact absurd (List.getLast?_eq_none_iff.mp hll) hl
      | some x => simp

theorem noCRLFsplit_shift (A c : List Nat) (cs : List (List Nat))
    (h : noCRLFsplit A (c :: cs)) : noCRLFsplit (A ++ c) cs := by
  intro k hk
  have := h (k + 1) (by simpa using hk)
  simpa [List.flatten_cons, List.append_assoc] using this

theorem noCRLFsplit_zero (A c : List Nat) (cs : List (List Nat))
    (h : noCRLFsplit A (c :: cs)) :
    ¬(A.getLast? = some 13 ∧ (c ++ cs.flatten).head? = some 10) := by
  have := h 0 (by simp)
  simpa using this

theorem head?_ne_ten_of_termFree (x : List Nat) (h : termFree x = true) :
    x.head? ≠ some 10 := by
  cases x with
  | nil => simp
  | cons b r =>
    simp only [termFree, List.all_cons, Bool.and_eq_true, Bool.not_eq_true'] at h
    simp only [List.head?_cons, ne_eq, Option.some.injEq]
    intro hb
    rw [hb] at h
    simp [isTerm] at h

/-- Invariant of the `_aiter_lines` chunk loop: with a terminated prefix `D`
already split off and a terminator-free partial line `pending` held back,
the lines the loop still emits are exactly the `splitlines` of the
unprocessed bytes, as long as no remaining chunk boundary cuts a CRLF. -/
theorem aiterAux_spec (cs : List (List Nat)) :
    ∀ (pending : Option (List Nat)) (D : List Nat),
    (∀ x, pending = some x → x ≠ [] ∧ termFree x = true) →
    endsWithTerm D = true →
    noCRLFsplit (D ++ pending.getD []) cs →
    splitlines (D ++ (pending.getD [] ++ cs.flatten)) =
      splitlines D ++ aiterAux pending cs := by
  induction cs with
  | nil =>
    intro pending D hp hD _
    cases pending with
    | none => simp [aiterAux]
    | some x =>
      obtain ⟨hx, hfree⟩ := hp x rfl
      simp only [aiterAux, Option.getD, List.flatten_nil, List.append_nil]
      rw [splitlines_append D x hD ?_, splitlines_termFree x hx hfree]
      rintro ⟨_, hhead⟩
      exact head?_ne_ten_of_termFree x hfree hhead
  | cons c cs ih =>
    intro pending D hp hD hH
    have hu : joinChunk pending c = pending.getD [] ++ c := by
      cases pending <;> simp [joinChunk]
    have hbytes : D ++ (pending.getD [] ++ (c :: cs).flatten) =
        (D ++ joinChunk pending c) ++ cs.flatten := by
      rw [hu, List.flatten_cons]
      simp [List.append_assoc]
    have hHs : noCRLFsplit (D ++ joinChunk pending c) cs := by
      have hsh := noCRLFsplit_shift (D ++ pending.getD []) c cs hH
      rw [hu, ← List.append_assoc]
      exact hsh
    have hhead10 : ¬(D.getLast? = some 13 ∧ (joinChunk pending c).head? = some 10) := by
      rw [hu]
      rintro ⟨h13, hh⟩
      cases hpc : pending with
      | none =>
        rw [hpc] at hH hh
        simp only [Option.getD_none, List.nil_append] at hh
        simp only [Option.getD_none, List.append_nil] at hH
        have hc : c ≠ [] := by rintro rfl; simp at hh
        have h0 := noCRLFsplit_zero D c cs hH
        exact h0 ⟨h13, by rwa [head?_append_of_ne_nil c cs.flatten hc]⟩
      | some x =>
        rw [hpc] at hh
        obtain ⟨hx, hfree⟩ := hp x hpc
        simp only [Option.getD_some] at hh
        rw [head?_append_of_ne_nil x c hx] at hh
        exact head?_ne_ten_of_termFree x hfree hh
    by_cases hterm : endsWithTerm (joinChunk pending c) = true
    · -- the combined chunk ends on a terminator: nothing is held back
      have hstep := splitStep_term (joinChunk pending c) hterm
      have hDend : endsWithTerm (D ++ joinChunk pending c) = true := by
        by_cases hc : joinChunk pending c = []
        · rw [hc, List.append_nil]; exact hD
        · rw [endsWithTerm_append D _ hc]; exact hterm
      have ihh := ih none (D ++ joinChunk pending c) (fun x hx => by cases hx) hDend
        (by simpa using hHs)
      simp only [Option.getD_none, List.nil_append] at ihh
      rw [hbytes, ihh, splitlines_append D (joinChunk pending c) hD hhead10]
      simp only [aiterAux, hstep, List.append_assoc]
    · -- a partial line remains: it becomes the new pending buffer
      rw [Bool.not_eq_true] at hterm
      obtain ⟨v, l, hvl, hl, hfree, hv, hsp⟩ := splitlines_decomp (joinChunk pending c) hterm
      have hstep := splitStep_nonterm (joinChunk pending c) v l hvl hl hsp
      have hDv : endsWithTerm (D ++ v) = true := by
        by_cases hv0 : v = []
        · rw [hv0, List.append_nil]; exact hD
        · rw [endsWithTerm_append D v hv0]; exact hv
      have hHv : noCRLFsplit ((D ++ v) ++ l) cs := by
        rw [List.append_assoc, ← hvl]
        exact hHs
      have ihh := ih (some l) (D ++ v)
        (fun x hx => by cases hx; exact ⟨hl, hfree⟩) hDv (by simpa using hHv)
      simp only [Option.getD_some] at ihh
      have hbytes2 : (D ++ joinChunk pending c) ++ cs.flatten =
          (D ++ v) ++ (l ++ cs.flatten) := by
        rw [hvl]
        simp [List.append_assoc]
      have hhv : ¬(D.getLast? = some 13 ∧ v.head? = some 10) := by
        by_cases hv0 : v = []
        · subst hv0; simp
        · rintro ⟨h13, hh⟩
          refine hhead10 ⟨h13, ?_⟩
          rw [hvl, head?_append_of_ne_nil v l hv0]
          exact hh
      rw [hbytes, hbytes2, ihh, splitlines_append D v hD hhv]
      simp only [aiterAux, hstep, List.append_assoc]

/-- `_aiter_lines` on the unsplit stream is exactly `bytes.splitlines`. -/
theorem aiter_lines_single (s : List Nat) : aiter_lines [s] = splitlines s := by
  unfold aiter_lines
  by_cases hterm : endsWithTerm s = true
  · simp [aiterAux, joinChunk, splitStep_term s hterm]
  · rw [Bool.not_eq_true] at hterm
    obtain ⟨v, l, hvl, hl, hfree, hv, hsp⟩ := splitlines_decomp s hterm
    simp [aiterAux, joinChunk, splitStep_nonterm s v l hvl hl hsp, hsp]

/-- For a partition with no CRLF-cutting boundary, `_aiter_lines` emits
exactly `bytes.splitlines` of the whole stream. -/
theorem aiter_lines_eq_splitlines (chunks : List (List Nat))
    (h : noCRLFsplit [] chunks) :
    aiter_lines chunks = splitlines chunks.flatten := by
  have := aiterAux_spec chunks none [] (fun x hx => by cases hx) rfl (by simpa using h)
  simpa [aiter_lines] using this.symm

/-- C1 (counterexample): the claim fails as stated.  The well-formed stream
`"a" CR LF` split between the CR and the LF makes `_aiter_lines` emit a
spurious empty line (`["a", ""]`) that the unsplit stream does not have
(`["a"]`). -/
theorem claim_C1_counterexample :
    endsWithTerm (List.flatten [[97, 13], [10]]) = true ∧
    aiter_lines [[97, 13], [10]] ≠ aiter_lines [List.flatten [[97, 13], [10]]] := by
  constructor
  · decide
  · decide

/-- C1 (amended): for every byte stream that is a well-formed sequence of
terminated lines and every partition of it into chunks (empty chunks,
mid-line splits and chunks ending exactly on a terminator included) in
which no chunk boundary falls between the CR and the LF of a CRLF
terminator, `_aiter_lines` emits exactly the same sequence of lines as for
the unsplit stream. -/
theorem claim_C1_amended (chunks : List (List Nat))
    (_hwf : endsWithTerm chunks.flatten = true)
    (hsplit : noCRLFsplit [] chunks) :
    aiter_lines chunks = aiter_lines [chunks.flatten] := by
  rw [aiter_lines_single, aiter_lines_eq_splitlines chunks hsplit]

/-- C1 (witness): a concrete partition with an empty chunk, a mid-line
split, a chunk that is purely a terminator and chunks ending exactly on a
terminator, on which the amended invariance theorem applies. -/
theorem claim_C1_witness :
    endsWithTerm (List.flatten [[97], [], [98, 13], [13, 10], [99, 10]]) = true ∧
    noCRLFsplit [] [[97], [], [98, 13], [13, 10], [99, 10]] ∧
    aiter_lines [[97], [], [98, 13], [13, 10], [99, 10]] =
      aiter_lines [List.flatten [[97], [], [98, 13], [13, 10], [99, 10]]] :=
  ⟨by decide, by decide, claim_C1_amended _ (by decide) (by decide)⟩

/-! ### Result stream protocol: truncation (C2) -/

theorem rows_until_trailer_truncated {ρ : Type} (parse_row : String → Except PyExc ρ) :
    ∀ data : List String, (∀ l ∈ data, l ≠ "") →
    (∀ l ∈ data, ∃ r, parse_row l = .ok r) →
    rows_until_trailer parse_row data = .error (.ValueError truncation_msg) := by
  intro data
  induction data with
  | nil => intro _ _; rfl
  | cons l rest ih =>
    intro hblank hparse
    have hl : l ≠ "" := hblank l (List.mem_cons_self l rest)
    obtain ⟨r, hr⟩ := hparse l (List.mem_cons_self l rest)
    have hrec := ih (fun x hx => hblank x (List.mem_cons_of_mem l hx))
      (fun x hx => hparse x (List.mem_cons_of_mem l hx))
    simp only [rows_until_trailer, if_neg hl]
    rw [hr, hrec]
    rfl

/-- C2: for every response line sequence beginning with a valid JSON header
line, followed by zero or more nonblank data lines (each decodable as a
row) and ending without a blank trailer line, consuming the row stream
raises the truncation `ValueError` with exactly the message
`Truncated response. Trailer line not found.` — also when `data` is empty
(header immediately followed by end-of-stream). -/
theorem claim_C2 {ρ : Type} (parse_header : String → Except PyExc (List String))
    (make_row : List String → String → Except PyExc ρ)
    (h : String) (data : List String) (names : List String)
    (hh : parse_header h = .ok names)
    (hblank : ∀ l ∈ data, l ≠ "")
    (hparse : ∀ l ∈ data, ∃ r, make_row names l = .ok r) :
    stream_query parse_header make_row (h :: data) =
      .error (.ValueError ("Truncated response. Trailer line not found.")) := by
  have hrec := rows_until_trailer_truncated (make_row names) data hblank hparse
  simp only [stream_query]
  rw [hh]
  show (do
    let rows ← rows_until_trailer (make_row names) data
    Except.ok (set_description names, rows)) =
      Except.error (.ValueError ("Truncated response. Trailer line not found."))
  rw [hrec]
  rfl

/-- C2 (witness): a one-row response with no trailer, and decoding
functions standing in for `ujson`. -/
theorem claim_C2_witness :
    stream_query (fun _ => .ok ["name"]) (fun _ l => .ok l) ["h", "a"] =
      .error (.ValueError ("Truncated response. Trailer line not found.")) :=
  claim_C2 (fun _ => .ok ["name"]) (fun _ l => .ok l) "h" ["a"] ["name"] rfl
    (by decide) (fun l _ => ⟨l, rfl⟩)

/-! ### Column description (C3) -/

/-- C3 (counterexample): executing over header `["name"]` with the single
row `["alice"]` leaves `description = [("name", None)]` — the code's
`_set_description` ignores the rows, so the descriptor does not carry the
STRING/nullable inference that `get_description_from_row` would compute
from the first row. -/
theorem claim_C3_counterexample :
    stream_query (fun _ => .ok ["name"]) (fun _ _ => .ok [("name", Py.str "alice")])
        ["h", "r", ""] =
      .ok ([[Py.str "name", Py.none]], [[("name", Py.str "alice")]]) ∧
    get_description_from_row [("name", Py.str "alice")] =
      .ok [[Py.str "name", Py.int TypeSTRING, Py.none, Py.none, Py.none, Py.none,
        Py.bool true]] ∧
    ([[Py.str "name", Py.none]] : List (List Py)) ≠
      [[Py.str "name", Py.int TypeSTRING, Py.none, Py.none, Py.none, Py.none,
        Py.bool true]] := by
  refine ⟨rfl, rfl, ?_⟩
  simp

/-- C3 (amended): after a successful execute the description is the header
field names each paired with Python `None` — independent of the emitted
rows — while the inference table the claim describes (string/None gives
STRING and nullable, bool gives BOOLEAN not-null, int/float gives NUMBER
not-null) is implemented by the helper `get_description_from_row`, which
`_set_description` does not use. -/
theorem claim_C3_amended {ρ : Type} (parse_header : String → Except PyExc (List String))
    (make_row : List String → String → Except PyExc ρ) (h : String)
    (rest : List String) (names : List String) (desc : List (List Py)) (rows : List ρ)
    (hh : parse_header h = .ok names)
    (hrun : stream_query parse_header make_row (h :: rest) = .ok (desc, rows)) :
    desc = names.map (fun n => [Py.str n, Py.none]) ∧
    (∀ s, get_type (Py.str s) = .ok TypeSTRING) ∧
    get_type Py.none = .ok TypeSTRING ∧
    (∀ b, get_type (Py.bool b) = .ok TypeBOOLEAN) ∧
    (∀ n, get_type (Py.int n) = .ok TypeNUMBER) ∧
    (∀ q, get_type (Py.float q) = .ok TypeNUMBER) ∧
    (∀ name v t, get_type v = .ok t →
      get_description_from_row [(name, v)] =
        .ok [[Py.str name, Py.int t, Py.none, Py.none, Py.none, Py.none,
          Py.bool (t == TypeSTRING)]]) := by
  refine ⟨?_, fun s => rfl, rfl, fun b => by cases b <;> rfl, fun n => rfl, fun q => rfl,
    fun name v t ht => ?_⟩
  · simp only [stream_query] at hrun
    rw [hh] at hrun
    have hrun2 : (do
        let rows ← rows_until_trailer (make_row names) rest
        Except.ok (set_description names, rows)) = Except.ok (desc, rows) := hrun
    cases hrows : rows_until_trailer (make_row names) rest with
    | ok rs =>
      rw [hrows] at hrun2
      have hinj : Except.ok (set_description names, rs) =
          (Except.ok (desc, rows) : Except PyExc (List (List Py) × List ρ)) := hrun2
      cases hinj
      rfl
    | error e =>
      rw [hrows] at hrun2
      have hrun3 : (Except.error e : Except PyExc (List (List Py) × List ρ)) =
          Except.ok (desc, rows) := hrun2
      cases hrun3
  · simp only [get_description_from_row, List.mapM, List.mapM.loop]
    rw [ht]
    rfl

/-- C3 (witness): the amended theorem applied to a concrete one-row
response. -/
theorem claim_C3_amended_witness :
    ([[Py.str "name", Py.none]] : List (List Py)) =
      (["name"].map (fun n => [Py.str n, Py.none])) ∧
    get_description_from_row [("x", Py.int 7)] =
      .ok [[Py.str "x", Py.int TypeNUMBER, Py.none, Py.none, Py.none, Py.none,
        Py.bool false]] := by
  have hmain := claim_C3_amended (fun _ => .ok ["name"])
    (fun _ _ => .ok [("name", Py.str "alice")]) "h" ["r", ""] ["name"]
    [[Py.str "name", Py.none]] [[("name", Py.str "alice")]] rfl rfl
  exact ⟨hmain.1, hmain.2.2.2.2.2.2 "x" (Py.int 7) TypeNUMBER rfl⟩

/-! ### Parameter escaping of unsupported types (C4) -/

/-- C4 (counterexample): a parameter map with the unsupported value `None`
does not make `apply_parameters` fail — `escape` falls off the end of its
`isinstance` chain returning Python `None`, and `%s` renders it as the
text `None` inside the query string. -/
theorem claim_C4_counterexample :
    apply_parameters ("SELECT %(key)s") (some [("key", Py.none)]) =
      .ok ("SELECT None") := by decide

/-- C4 (amended): for every parameter value outside the supported set (not
a string, boolean, int, float, list or tuple — e.g. `None` or a dict),
`escape` returns Python `None` instead of failing, and `apply_parameters`
substitutes the text `None` into the query, returning a query string
rather than raising a formatting error. -/
theorem claim_C4_amended (v : Py)
    (hstr : isinstance_str v = false) (hbool : isinstance_bool v = false)
    (hint : isinstance_int v = false) (hfloat : isinstance_float v = false)
    (hseq : isinstance_list_tuple v = false) :
    escape v = .ok PyObj.none ∧
    apply_parameters ("SELECT %(key)s") (some [("key", v)]) = .ok ("SELECT None") := by
  have hv : v = Py.none ∨ v = Py.dict := by
    cases v <;> simp_all [isinstance_str, isinstance_bool, isinstance_int,
      isinstance_float, isinstance_list_tuple]
  rcases hv with rfl | rfl
  · exact ⟨rfl, by decide⟩
  · exact ⟨rfl, by decide⟩

/-- C4 (witness): the amended theorem applied to `None`. -/
theorem claim_C4_witness :
    escape Py.none = .ok PyObj.none ∧
    apply_parameters ("SELECT %(key)s") (some [("key", Py.none)]) =
      .ok ("SELECT None") :=
  claim_C4_amended Py.none rfl rfl rfl rfl rfl

/-! ### Sequence parameters (C5) -/

/-- C5 (counterexample): a list of numbers cannot be substituted — `escape`
returns numeric elements unconverted, so Python's `", ".join` raises a
`TypeError` instead of producing the comma-joined literal. -/
theorem claim_C5_counterexample :
    escape (Py.list [Py.int 1, Py.int 2]) =
      .error (.TypeError ("sequence item: expected str instance")) ∧
    apply_parameters ("SELECT a FROM t WHERE x IN (%(lst)s)")
        (some [("lst", Py.list [Py.int 1, Py.int 2])]) =
      .error (.TypeError ("sequence item: expected str instance")) := by
  exact ⟨by decide, by decide⟩

/-- C5 (amended): for lists whose elements are strings or booleans (whose
escaped forms are strings), `escape` returns the comma-joined concatenation
of the escaped elements and an `IN (%(lst)s)`-style substitution succeeds;
a numeric element instead makes the join raise a `TypeError`. -/
theorem claim_C5_amended (xs : List Py)
    (h : ∀ x ∈ xs, isinstance_str x = true ∨ isinstance_bool x = true) :
    escape (Py.list xs) =
      .ok (.str (String.intercalate (", ") (xs.map escapedScalarText))) ∧
    apply_parameters ("SELECT a FROM t WHERE x IN (%(lst)s)")
        (some [("lst", Py.list [Py.str "a", Py.bool true])]) =
      .ok ("SELECT a FROM t WHERE x IN (" ++ squote ++ "a" ++ squote ++ ", TRUE)") := by
  constructor
  · have hlist : escapeList xs = .ok (xs.map (fun x => PyObj.str (escapedScalarText x))) := by
      induction xs with
      | nil => rfl
      | cons x rest ih =>
        have hrec := ih (fun y hy => h y (List.mem_cons_of_mem x hy))
        have hx : escape x = .ok (.str (escapedScalarText x)) := by
          rcases h x (List.mem_cons_self x rest) with hs | hb
          · cases x <;> simp [isinstance_str] at hs
            case str s =>
              by_cases hstar : s = "*" <;> simp [escape, escapedScalarText, hstar]
          · cases x <;> simp [isinstance_bool] at hb
            case bool b => cases b <;> rfl
        simp only [escapeList]
        rw [hx, hrec]
        rfl
    have hjoin : joinComma (xs.map (fun x => PyObj.str (escapedScalarText x))) =
        .ok (.str (String.intercalate (", ") (xs.map escapedScalarText))) := by
      unfold joinComma
      rw [if_pos]
      · congr 2
        rw [List.map_map]
        rfl
      · rw [List.all_eq_true]
        intro o ho
        obtain ⟨x, _, rfl⟩ := List.mem_map.mp ho
        rfl
    simp only [escape]
    rw [hlist]
    exact hjoin
  · decide

/-- C5 (witness): the amended theorem at a concrete string/boolean list. -/
theorem claim_C5_witness :
    escape (Py.list [Py.str "a", Py.bool false]) =
      .ok (.str (String.intercalate (", ")
        ([Py.str "a", Py.bool false].map escapedScalarText))) ∧
    apply_parameters ("SELECT a FROM t WHERE x IN (%(lst)s)")
        (some [("lst", Py.list [Py.str "a", Py.bool true])]) =
      .ok ("SELECT a FROM t WHERE x IN (" ++ squote ++ "a" ++ squote ++ ", TRUE)") :=
  claim_C5_amended [Py.str "a", Py.bool false] (by decide)

/-! ### Error translator (C6) -/

theorem lookupField_cons_of_ne (k v k2 : String) (p : List (String × String))
    (h : (k == k2) = false) : lookupField ((k, v) :: p) k2 = lookupField p k2 := by
  unfold lookupField
  rw [List.find?_cons_of_neg]
  simp [h]

/-- C6: for every non-200 response whose JSON payload has `error` and
`errorMessage` and an `errorCode` but no `errorClass`, the raised
`ProgrammingError` message is exactly `error (errorCode): errorMessage` —
`errorCode` is aliased into `errorClass` before formatting. -/
theorem claim_C6 (status : Nat) (p : List (String × String)) (text e c m : String)
    (hstatus : status ≠ 200)
    (he : lookupField p ("error") = some e)
    (hm : lookupField p ("errorMessage") = some m)
    (hc : lookupField p ("errorCode") = some c)
    (hcls : lookupField p ("errorClass") = Option.none) :
    http_status_check status (some p) text =
      .error (.ProgrammingError (e ++ (" (") ++ c ++ ("): ") ++ m)) := by
  unfold http_status_check
  rw [if_pos hstatus]
  unfold handle_http_error synth_payload alias_error_code
  rw [hcls, hc]
  simp only [Option.isNone_none, Option.isSome_some, Bool.and_self, if_true,
    Option.getD_some]
  unfold format_error_message
  have h1 : lookupField (("errorClass", c) :: p) ("error") = some e := by
    rw [lookupField_cons_of_ne _ _ _ _ (by decide)]
    exact he
  have h2 : lookupField (("errorClass", c) :: p) ("errorClass") = some c := by
    unfold lookupField
    rw [List.find?_cons_of_pos _ (by rfl)]
    rfl
  have h3 : lookupField (("errorClass", c) :: p) ("errorMessage") = some m := by
    rw [lookupField_cons_of_ne _ _ _ _ (by decide)]
    exact hm
  rw [h1, h2, h3]

/-- C6 (witness): a concrete 500 response using `errorCode`. -/
theorem claim_C6_witness :
    http_status_check 500
        (some [("error", "E"), ("errorCode", "C"), ("errorMessage", "M")]) "" =
      .error (.ProgrammingError ("E" ++ (" (") ++ "C" ++ ("): ") ++ "M")) :=
  claim_C6 500 [("error", "E"), ("errorCode", "C"), ("errorMessage", "M")] "" "E" "C" "M"
    (by decide) rfl rfl rfl rfl

/-! ### Exhausted cursor (C7) -/

theorem islice_exhausted {ρ : Type} :
    ∀ n, islice n (⟨[], true⟩ : ResultStream ρ) = .ok ([], ⟨[], true⟩) := by
  intro n
  cases n <;> rfl

/-- C7: on an executed, open cursor whose row stream is fully consumed
(no rows left, trailer seen), `fetchone` returns `None` — an explicit
no-more-rows signal, not an error — and `fetchall` and `fetchmany` (for
every size) return an empty list without error, leaving the cursor
unchanged. -/
theorem claim_C7 {ρ : Type} (c : SyncCursor ρ)
    (hopen : c.closed = false)
    (hdone : c.results = some ⟨[], true⟩) :
    fetchone c = .ok (Option.none, c) ∧
    fetchall c = .ok ([], c) ∧
    ∀ size, fetchmany size c = .ok ([], c) := by
  obtain ⟨cl, ar, res⟩ := c
  simp only at hopen hdone
  subst hopen
  subst hdone
  refine ⟨rfl, rfl, fun size => ?_⟩
  simp [fetchmany, islice_exhausted]

/-- C7 (witness): an exhausted cursor over string rows. -/
theorem claim_C7_witness :
    fetchone (⟨false, 1, some ⟨[], true⟩⟩ : SyncCursor String) =
      .ok (Option.none, ⟨false, 1, some ⟨[], true⟩⟩) ∧
    fetchall (⟨false, 1, some ⟨[], true⟩⟩ : SyncCursor String) =
      .ok ([], ⟨false, 1, some ⟨[], true⟩⟩) ∧
    fetchmany (some 2) (⟨false, 1, some ⟨[], true⟩⟩ : SyncCursor String) =
      .ok ([], ⟨false, 1, some ⟨[], true⟩⟩) := by
  have hmain := claim_C7 (⟨false, 1, some ⟨[], true⟩⟩ : SyncCursor String) rfl rfl
  exact ⟨hmain.1, hmain.2.1, hmain.2.2 (some 2)⟩

/-! ### fetchmany (C8) -/

/-- C8: the synchronous `fetchmany(2)` on a 3-row result returns the first
two rows, then the third alone, then an empty list, and a missing size
falls back to `arraysize`; but the asynchronous `fetchmany` iterates
`async for i, row in self._results` — destructuring every `Row` instead of
enumerating the loop — so on the same 3-row single-column result it raises
an unpack `ValueError` instead of returning the first two rows. -/
theorem claim_C8_bug :
    (fetchmany (some 2) (⟨false, 1, some ⟨["a", "b", "c"], true⟩⟩ : SyncCursor String) =
      .ok (["a", "b"], ⟨false, 1, some ⟨["c"], true⟩⟩)) ∧
    (fetchmany (some 2) (⟨false, 1, some ⟨["c"], true⟩⟩ : SyncCursor String) =
      .ok (["c"], ⟨false, 1, some ⟨[], true⟩⟩)) ∧
    (fetchmany (some 2) (⟨false, 1, some ⟨[], true⟩⟩ : SyncCursor String) =
      .ok ([], ⟨false, 1, some ⟨[], true⟩⟩)) ∧
    (fetchmany Option.none (⟨false, 2, some ⟨["a", "b", "c"], true⟩⟩ : SyncCursor String) =
      .ok (["a", "b"], ⟨false, 2, some ⟨["c"], true⟩⟩)) ∧
    async_fetchmany (some 2) 1
        ⟨[[Py.str "alice"], [Py.str "bob"], [Py.str "charlie"]], true⟩ =
      .error (.ValueError ("not enough values to unpack (expected 2, got 1)")) := by
  exact ⟨by decide, by decide, by decide, by decide, rfl⟩

/-! ### Boolean escaping (C9) -/

/-- C9: booleans escape to the bare words `TRUE`/`FALSE` (never a numeric
rendering) although booleans are numeric-compatible in the source type
system (`isinstance_int` accepts them) — the `bool` branch is checked
before the numeric branch — and `apply_parameters` substitutes the words
unquoted. -/
theorem claim_C9 (b : Bool) :
    escape (Py.bool b) = .ok (.str (if b then "TRUE" else "FALSE")) ∧
    isinstance_int (Py.bool b) = true ∧
    apply_parameters ("SELECT %(key)s") (some [("key", Py.bool b)]) =
      .ok ("SELECT " ++ (if b then "TRUE" else "FALSE")) := by
  cases b
  · exact ⟨rfl, rfl, by decide⟩
  · exact ⟨rfl, rfl, by decide⟩

/-! ### executemany on a closed cursor (C10) -/

/-- C10: on a closed cursor, `executemany` raises the closed-state usage
error (`Cursor already closed`), not the `NotSupportedError` — the
`@check_closed` wrapper runs before the unsupported-operation body. -/
theorem claim_C10 {ρ : Type} (c : SyncCursor ρ) (h : c.closed = true) :
    executemany c = .error (.Error ("Cursor already closed")) ∧
    ∀ msg, executemany c ≠ .error (.NotSupportedError msg) := by
  unfold executemany
  rw [h]
  exact ⟨rfl, fun msg hcontra => by simp at hcontra⟩

/-- C10 (witness): a concrete closed cursor. -/
theorem claim_C10_witness :
    executemany (⟨true, 1, Option.none⟩ : SyncCursor Nat) =
      .error (.Error ("Cursor already closed")) ∧
    executemany (⟨true, 1, Option.none⟩ : SyncCursor Nat) ≠
      .error (.NotSupportedError ("`executemany` is not supported, use `execute` instead")) :=
  ⟨(claim_C10 (⟨true, 1, Option.none⟩ : SyncCursor Nat) rfl).1,
    (claim_C10 (⟨true, 1, Option.none⟩ : SyncCursor Nat) rfl).2 _⟩

end PydruidDb
